import Mathlib

/-!
Verification of the hotenv hot-reloading configuration store
(`hotenv/hotenv.go`): the `.env` parser `loadEnvFile`, the lookup policy
`get`/`Getenv`, and the lifecycle state machine (`ensureStarted`, `Stop`,
`WithFallbackToProcessEnv`, and the debounced reload callback).

File input is modelled as the list of lines produced by the line scanner
(terminators already stripped), and file-system I/O as an `Except` value:
`Except.ok c` for a successful load of the file into `c`, `Except.error e`
for an open or read failure. Strings are treated as their character
sequences; the Go code indexes bytes, which coincides on ASCII input, and
every quote character the parser inspects is ASCII.
-/

namespace Hotenv

/-- Character-level whitespace test matching Go `unicode.IsSpace` on the
ASCII range, which is what `strings.TrimSpace` uses on ASCII input. -/
def goIsSpace (c : Char) : Bool :=
  c == ' ' || c == '\t' || c == '\n' || c == '\x0b' || c == '\x0c' || c == '\r'

/-- Go `strings.TrimSpace`: drop leading and trailing whitespace. -/
def trimSpace (s : String) : String :=
  ⟨((s.data.dropWhile goIsSpace).reverse.dropWhile goIsSpace).reverse⟩

/-- Split a character list at the first `=`, as `strings.SplitN(s, "=", 2)`
does: `none` when no `=` occurs (the Go slice then has length 1). -/
def splitEqAux : List Char → Option (List Char × List Char)
  | [] => none
  | c :: rest =>
    if c = '=' then some ([], rest)
    else
      match splitEqAux rest with
      | some (l, r) => some (c :: l, r)
      | none => none

/-- Split a string at the first `=` into key part and value part. -/
def splitEq (s : String) : Option (String × String) :=
  match splitEqAux s.data with
  | some (l, r) => some (⟨l⟩, ⟨r⟩)
  | none => none

/-- Go `strings.HasPrefix(s, string(c))` for an ASCII character `c`. -/
def startsWithChar (s : String) (c : Char) : Bool :=
  s.data.head? == some c

/-- Go `strings.HasSuffix(s, string(c))` for an ASCII character `c`. -/
def hasSuffixChar (s : String) (c : Char) : Bool :=
  s.data.getLast? == some c

/-- Go `strings.TrimPrefix(s, string(c))`: remove one leading `c` if present. -/
def trimPrefixChar (s : String) (c : Char) : String :=
  match s.data with
  | c' :: rest => if c' = c then ⟨rest⟩ else s
  | [] => s

/-- Go `strings.TrimSuffix(s, string(c))`: remove one trailing `c` if present. -/
def trimSuffixChar (s : String) (c : Char) : String :=
  match s.data.getLast? with
  | some c' => if c' = c then ⟨s.data.dropLast⟩ else s
  | none => s

/-- The single-quote character, code point 39. -/
def squote : Char := Char.ofNat 39

/-- The double-quote character, code point 34. -/
def dquote : Char := Char.ofNat 34

/-- The parsed mapping, as an association list with unique keys. -/
abbrev ConfigMap := List (String × String)

/-- Go map assignment `out[key] = v`: overwrite any previous binding. -/
def minsert (m : ConfigMap) (k v : String) : ConfigMap :=
  m.filter (fun p => p.1 != k) ++ [(k, v)]

/-- Go map read `m[key]`: the bound value, or the zero value `""` when the
key is absent. -/
def mapGet (m : ConfigMap) (k : String) : String :=
  match m.lookup k with
  | some v => v
  | none => ""

/-- The `config` struct holding the parsed mapping. -/
structure config where
  m : ConfigMap

/-- The local state of `loadEnvFile`'s scan loop: the map built so far and
the `key`, `value`, `inMultiline`, `quote` variables. -/
structure ParseState where
  out : ConfigMap
  key : String
  value : String
  inMultiline : Bool
  quote : Char
deriving DecidableEq

/-- The scan state at entry of `loadEnvFile`: empty map, zero-valued
`key`, `value`, `inMultiline` and `quote` variables. -/
def initState : ParseState :=
  { out := [], key := "", value := "", inMultiline := false,
    quote := Char.ofNat 0 }

/-- One iteration of `loadEnvFile`'s scan loop on one line (terminator
already stripped by the scanner), transcribing `hotenv.go` lines 196-239. -/
def processLine (st : ParseState) (line : String) : ParseState :=
  if !st.inMultiline then
    let trim := trimSpace line
    if trim = "" ∨ startsWithChar trim '#' = true then st
    else
      match splitEq trim with
      | none => st
      | some (k0, v0) =>
        let key := trimSpace k0
        let value := trimSpace v0
        if value.data.length ≥ 2 then
          let start := value.data.headD ' '
          let stop := value.data.getLastD ' '
          if (start = squote ∨ start = dquote) ∧ stop = start then
            { st with
              out := minsert st.out key
                (trimSuffixChar (trimPrefixChar value start) start),
              key := "", value := "" }
          else if (start = squote ∨ start = dquote) ∧ stop ≠ start then
            { st with
              inMultiline := true, quote := start, key := key,
              value := trimPrefixChar value start ++ "\n" }
          else
            { st with out := minsert st.out key value, key := "", value := "" }
        else
          { st with out := minsert st.out key value, key := "", value := "" }
  else
    if hasSuffixChar line st.quote then
      { st with
        out := minsert st.out st.key (st.value ++ trimSuffixChar line st.quote),
        inMultiline := false, key := "", value := "" }
    else
      { st with value := st.value ++ line ++ "\n" }

/-- Run the scan loop from a given state over a list of lines. -/
def runLines (st : ParseState) (lines : List String) : ParseState :=
  lines.foldl processLine st

/-- The parsing core of `loadEnvFile` on the file's lines: the returned
mapping is the `out` map of the final scan state; a `value` still being
accumulated at end of input is dropped. Content never produces an error
(`sc.Err()` reports only I/O failures, modelled as `Except.error` at the
load sites). -/
def parseLines (lines : List String) : ConfigMap :=
  (runLines initState lines).out

/-- The package-level mutable state of `hotenv.go`: the `cfg` atomic value
(`none` before the first `Store`, after which the type assertion in `get`
fails), the two `sync.Once` guards, whether `cancelFunc` has been assigned,
whether the watcher goroutine was launched and whether its context has been
cancelled, and the `optFallbackToProcessEnv` flag. -/
structure SysState where
  cfg : Option config
  initDone : Bool
  stopDone : Bool
  cancelSet : Bool
  watcherStarted : Bool
  cancelled : Bool
  optFallbackToProcessEnv : Bool

/-- Process start-up state: `cfg` holds nothing, neither `sync.Once` is
consumed, `cancelFunc` is nil, no watcher runs, and
`optFallbackToProcessEnv`, being a Go `atomic.Bool`, is zero-initialised
to `false` (its comment announces `default true`, but nothing in the
package ever stores `true`). -/
def initialState : SysState :=
  { cfg := none, initDone := false, stopDone := false, cancelSet := false,
    watcherStarted := false, cancelled := false,
    optFallbackToProcessEnv := false }

/-- The function `ensureStarted`: under `initOnce`, perform the initial
load (storing the parsed config, or an empty config when the load fails),
assign `cancelFunc` and launch the watcher goroutine. Path resolution only
selects which file the abstracted `load` result comes from. -/
def ensureStarted (st : SysState) (load : Except String config) : SysState :=
  if st.initDone then st
  else
    { st with
      initDone := true,
      cfg := some (match load with | .ok c => c | .error _ => ⟨[]⟩),
      cancelSet := true,
      watcherStarted := true }

/-- The function `Stop`: under `stopOnce`, call `cancelFunc` if it is
non-nil. -/
def Stop (st : SysState) : SysState :=
  if st.stopDone then st
  else
    { st with
      stopDone := true,
      cancelled := if st.cancelSet then true else st.cancelled }

/-- The function `WithFallbackToProcessEnv`: store the flag. -/
def WithFallbackToProcessEnv (st : SysState) (enabled : Bool) : SysState :=
  { st with optFallbackToProcessEnv := enabled }

/-- The debounce timer callback inside `watchAndReload` (lines 150-157):
on a successful load store the new config, on failure only log. -/
def reloadFire (st : SysState) (load : Except String config) : SysState :=
  match load with
  | .ok c => { st with cfg := some c }
  | .error _ => st

/-- The function `get`: file tier (skipped when the type assertion on
`cfg` fails or the stored value is empty), then the process-environment
tier guarded by the flag, then `""`. `env` is `os.Getenv`, which returns
`""` for unset variables. -/
def get (st : SysState) (env : String → String) (key : String) : String :=
  let fileVal :=
    match st.cfg with
    | some cur => mapGet cur.m key
    | none => ""
  if fileVal ≠ "" then fileVal
  else if st.optFallbackToProcessEnv = true ∧ env key ≠ "" then env key
  else ""

/-- The function `Getenv`: lazily start, call `get`, and substitute the
first caller-supplied default when the result is empty. Returns the
updated state together with the value. -/
def Getenv (st : SysState) (env : String → String)
    (load : Except String config) (key : String) (defs : List String) :
    SysState × String :=
  let st' := ensureStarted st load
  let v := get st' env key
  (st', if v = "" ∧ defs ≠ [] then defs.headD "" else v)

/-- The public operations that can run after start, for stating
preservation of invariants over any interleaving. -/
inductive Op where
  | opGetenv (env : String → String) (load : Except String config)
      (key : String) (defs : List String)
  | opInit (load : Except String config)
  | opStop
  | opReload (load : Except String config)
  | opFallback (b : Bool)

/-- Apply one public operation to the package state. -/
def applyOp (st : SysState) : Op → SysState
  | .opGetenv env load key defs => (Getenv st env load key defs).1
  | .opInit load => ensureStarted st load
  | .opStop => Stop st
  | .opReload load => reloadFire st load
  | .opFallback b => WithFallbackToProcessEnv st b

/-- Apply a sequence of public operations in order. -/
def applyOps (st : SysState) (ops : List Op) : SysState :=
  ops.foldl applyOp st

/-- A started store whose snapshot is `m` and whose fallback flag is
`flag`, as published by a successful load followed by any number of
successful reloads. -/
def startedState (m : ConfigMap) (flag : Bool) : SysState :=
  { cfg := some ⟨m⟩, initDone := true, stopDone := false, cancelSet := true,
    watcherStarted := true, cancelled := false,
    optFallbackToProcessEnv := flag }

/-! ### Helper lemmas -/

theorem lookup_filter_ne (m : ConfigMap) (k : String) :
    (m.filter (fun p => p.1 != k)).lookup k = none := by
  induction m with
  | nil => rfl
  | cons a t ih =>
    obtain ⟨a1, a2⟩ := a
    by_cases h : a1 = k
    · simp [List.filter_cons, h, ih]
    · simp [List.filter_cons, h, List.lookup, show (k == a1) = false by simp [Ne.symm h], ih]

theorem lookup_minsert_self (m : ConfigMap) (k v : String) :
    (minsert m k v).lookup k = some v := by
  induction m with
  | nil => simp [minsert, List.lookup]
  | cons a t ih =>
    obtain ⟨a1, a2⟩ := a
    by_cases h : a1 = k
    · simpa [minsert, List.filter_cons, h] using ih
    · simpa [minsert, List.filter_cons, h, List.lookup, show (k == a1) = false by simp [Ne.symm h]] using ih

theorem mapGet_minsert_self (m : ConfigMap) (k v : String) :
    mapGet (minsert m k v) k = v := by
  simp [mapGet, lookup_minsert_self]

theorem mapGet_filter_ne (m : ConfigMap) (k : String) :
    mapGet (m.filter (fun p => p.1 != k)) k = "" := by
  simp [mapGet, lookup_filter_ne]

theorem getenv_started_eq (m : ConfigMap) (flag : Bool)
    (env : String → String) (load : Except String config) (key : String)
    (defs : List String) :
    (Getenv (startedState m flag) env load key defs).2 =
      (if mapGet m key ≠ "" then mapGet m key
       else if flag = true ∧ env key ≠ "" then env key
       else defs.headD "") := by
  by_cases hf : mapGet m key = ""
  · by_cases he : flag = true ∧ env key ≠ ""
    · simp [Getenv, ensureStarted, startedState, get, hf, he, he.2]
    · cases defs with
      | nil => simp [Getenv, ensureStarted, startedState, get, hf, he]
      | cons d ds => simp [Getenv, ensureStarted, startedState, get, hf, he]
  · simp [Getenv, ensureStarted, startedState, get, hf]

theorem stop_stopped (st : SysState) (h : st.stopDone = true) :
    Stop st = st := by
  simp [Stop, h]

theorem trimPrefixChar_of_head (s : String) (q : Char)
    (hne : s.data ≠ []) (hh : s.data.headD ' ' = q) :
    trimPrefixChar s q = ⟨s.data.tail⟩ := by
  obtain ⟨l⟩ := s
  cases l with
  | nil => cases hne rfl
  | cons c rest =>
    have hc : c = q := by simpa using hh
    simp [trimPrefixChar, hc]

theorem strip_quotes_eq (s : String) (q : Char) (h2 : 2 ≤ s.data.length)
    (hh : s.data.headD ' ' = q) (hl : s.data.getLastD ' ' = q) :
    trimSuffixChar (trimPrefixChar s q) q = ⟨s.data.tail.dropLast⟩ := by
  obtain ⟨l⟩ := s
  match l with
  | c :: r :: rs =>
    have hc : c = q := by simpa using hh
    have hlast : (r :: rs).getLast? = some q := by
      simp only [List.getLastD_eq_getLast?, List.getLast?_cons_cons] at hl
      cases hq : (r :: rs).getLast? with
      | none => simp at hq
      | some x =>
        rw [hq] at hl
        simpa using hl
    simp [trimPrefixChar, trimSuffixChar, hc, hlast]
  | [] => simp at h2
  | [c] => simp at h2

theorem ensureStarted_cfg_isSome (st : SysState) (load : Except String config)
    (h : st.cfg.isSome = true) :
    (ensureStarted st load).cfg.isSome = true := by
  unfold ensureStarted
  split
  · exact h
  · rfl

theorem stop_cfg (st : SysState) : (Stop st).cfg = st.cfg := by
  unfold Stop
  split <;> rfl

theorem applyOp_cfg_isSome (st : SysState) (op : Op)
    (h : st.cfg.isSome = true) : (applyOp st op).cfg.isSome = true := by
  cases op with
  | opGetenv env load key defs => exact ensureStarted_cfg_isSome st load h
  | opInit load => exact ensureStarted_cfg_isSome st load h
  | opStop => rw [applyOp, stop_cfg]; exact h
  | opReload load =>
    cases load with
    | ok c => rfl
    | error e => exact h
  | opFallback b => exact h

theorem applyOps_cfg_isSome (st : SysState) (ops : List Op)
    (h : st.cfg.isSome = true) : (applyOps st ops).cfg.isSome = true := by
  induction ops generalizing st with
  | nil => exact h
  | cons op t ih =>
    simp only [applyOps, List.foldl_cons]
    exact ih _ (applyOp_cfg_isSome st op h)

/-! ### Claims -/

/-- C1: the claim says the fallback-to-process-environment tier is enabled
by default, as the code's own comments announce. It is not: the flag is a
zero-initialised `atomic.Bool`, so without a configuration call `get`
never consults the process environment. Concretely, after a start whose
initial load fails (empty snapshot) and with the environment defining
`X=Y`, `get "X"` returns `""` instead of `"Y"`. -/
theorem C1_default_fallback_is_disabled :
    initialState.optFallbackToProcessEnv = false ∧
    (fun k => if k = "X" then "Y" else "") "X" = "Y" ∧
    get (ensureStarted initialState (Except.error "open failed"))
      (fun k => if k = "X" then "Y" else "") "X" = "" := by
  refine ⟨rfl, rfl, ?_⟩
  decide

/-- C2: `Getenv` resolves in exactly three tiers — non-empty snapshot
value, else (when the flag is on) non-empty process-environment value,
else the first caller default or `""` — and a key bound to `""` in the
snapshot behaves exactly like a key that is absent from it. -/
theorem C2_three_tier_resolution :
    ∀ (m : ConfigMap) (flag : Bool) (env : String → String)
      (load : Except String config) (key : String) (defs : List String),
      (Getenv (startedState m flag) env load key defs).2 =
        (if mapGet m key ≠ "" then mapGet m key
         else if flag = true ∧ env key ≠ "" then env key
         else defs.headD "") ∧
      (Getenv (startedState (minsert m key "") flag) env load key defs).2 =
        (Getenv (startedState (m.filter (fun p => p.1 != key)) flag)
          env load key defs).2 := by
  intro m flag env load key defs
  refine ⟨getenv_started_eq m flag env load key defs, ?_⟩
  rw [getenv_started_eq, getenv_started_eq, mapGet_minsert_self,
    mapGet_filter_ne]

/-- C6: when the debounce timer's reload callback gets a failed load, the
whole package state — in particular the published snapshot — is unchanged,
so every subsequent `get` sees the previous snapshot. -/
theorem C6_failed_reload_keeps_state :
    ∀ (st : SysState) (e : String) (env : String → String) (key : String),
      reloadFire st (Except.error e) = st ∧
      get (reloadFire st (Except.error e)) env key = get st env key := by
  intro st e env key
  exact ⟨rfl, rfl⟩

/-- C7 counterexample: the claim says a `WithFallbackToProcessEnv` call
made after start is a no-op for running behavior. It is not: after a start
with an empty snapshot and an environment defining `X=Y`, enabling the
fallback post-start flips `get "X"` from `""` to `"Y"`. -/
theorem C7_post_start_configure_changes_get :
    get (WithFallbackToProcessEnv
        (ensureStarted initialState (Except.ok ⟨[]⟩)) true)
      (fun k => if k = "X" then "Y" else "") "X" ≠
    get (ensureStarted initialState (Except.ok ⟨[]⟩))
      (fun k => if k = "X" then "Y" else "") "X" := by
  decide

/-- C7 amended: `WithFallbackToProcessEnv` takes effect whenever it is
called, before or after start: it leaves the snapshot untouched, stores
the new flag value, and every subsequent `get` uses that stored value as
the tier-2 guard. -/
theorem C7_configure_fallback_always_effective :
    ∀ (st : SysState) (b : Bool) (env : String → String) (key : String),
      (WithFallbackToProcessEnv st b).cfg = st.cfg ∧
      (WithFallbackToProcessEnv st b).optFallbackToProcessEnv = b ∧
      get (WithFallbackToProcessEnv st b) env key =
        (let fileVal :=
          match st.cfg with
          | some cur => mapGet cur.m key
          | none => ""
         if fileVal ≠ "" then fileVal
         else if b = true ∧ env key ≠ "" then env key
         else "") := by
  intro st b env key
  exact ⟨rfl, rfl, rfl⟩

/-- C10: a `Stop` issued before the first start consumes the one-shot
`stopOnce` guard while `cancelFunc` is still nil; the watcher launched by
a later start is then never cancelled — any number of further `Stop`
calls leave its context uncancelled. -/
theorem C10_stop_before_start_never_cancels_watcher :
    ∀ (load : Except String config) (n : Nat),
      (Stop initialState).stopDone = true ∧
      (Stop initialState).cancelSet = false ∧
      (ensureStarted (Stop initialState) load).watcherStarted = true ∧
      (Stop^[n] (ensureStarted (Stop initialState) load)).cancelled
        = false := by
  intro load n
  refine ⟨rfl, rfl, rfl, ?_⟩
  rw [Function.iterate_fixed (stop_stopped _ rfl) n]
  cases load <;> rfl

/-- C3: a candidate value of length at least two that begins with a quote
character and does not end with that same character opens a multi-line
value: the single leading quote is stripped, a line terminator is
appended, the quote character and pending key are recorded; each later raw
line that does not end with the recorded quote is appended in full plus a
line terminator; the first raw line that does end with it has that one
trailing character stripped, is appended, the accumulated value is stored
under the pending key, and the parser returns to normal state. -/
theorem C3_multiline_value_accumulation :
    (∀ (st : ParseState) (line k0 v0 : String),
      st.inMultiline = false →
      trimSpace line ≠ "" →
      startsWithChar (trimSpace line) '#' = false →
      splitEq (trimSpace line) = some (k0, v0) →
      2 ≤ (trimSpace v0).data.length →
      ((trimSpace v0).data.headD ' ' = squote ∨
        (trimSpace v0).data.headD ' ' = dquote) →
      (trimSpace v0).data.getLastD ' ' ≠ (trimSpace v0).data.headD ' ' →
      processLine st line =
        { st with
          inMultiline := true,
          quote := (trimSpace v0).data.headD ' ',
          key := trimSpace k0,
          value := String.mk (trimSpace v0).data.tail ++ "\n" }) ∧
    (∀ (st : ParseState) (line : String),
      st.inMultiline = true →
      hasSuffixChar line st.quote = false →
      processLine st line = { st with value := st.value ++ line ++ "\n" }) ∧
    (∀ (st : ParseState) (line : String),
      st.inMultiline = true →
      hasSuffixChar line st.quote = true →
      processLine st line =
        { st with
          out := minsert st.out st.key
            (st.value ++ trimSuffixChar line st.quote),
          inMultiline := false, key := "", value := "" }) := by
  refine ⟨?_, ?_, ?_⟩
  · intro st line k0 v0 h0 h1 h2 h3 h4 h5 h6
    have hne : (trimSpace v0).data ≠ [] := by
      intro h
      rw [h] at h4
      simp at h4
    simp only [processLine, h0, Bool.not_false, if_true]
    rw [if_neg (by simp [h1, h2])]
    simp only [h3]
    rw [if_pos h4, if_neg (fun hc => h6 hc.2), if_pos ⟨h5, h6⟩,
      trimPrefixChar_of_head _ _ hne rfl]
  · intro st line h0 h1
    simp [processLine, h0, h1]
  · intro st line h0 h1
    simp [processLine, h0, h1]

/-- Witness for C3 on a concrete three-line run: an opening line, a middle
line without the closing quote, and a closing line. -/
theorem C3_witness :
    processLine initState "K=\"abc" =
      { initState with
        inMultiline := true, quote := dquote, key := "K",
        value := "abc\n" } ∧
    processLine
      { initState with
        inMultiline := true, quote := dquote, key := "K",
        value := "abc\n" } "mid" =
      { initState with
        inMultiline := true, quote := dquote, key := "K",
        value := "abc\nmid\n" } ∧
    processLine
      { initState with
        inMultiline := true, quote := dquote, key := "K",
        value := "abc\nmid\n" } "end\"" =
      { initState with
        out := [("K", "abc\nmid\nend")],
        inMultiline := false, key := "", value := "", quote := dquote } := by
  refine ⟨?_, ?_, ?_⟩
  · have h := C3_multiline_value_accumulation.1 initState "K=\"abc" "K"
      "\"abc" rfl (by decide) (by decide) (by decide) (by decide)
      (by decide) (by decide)
    rw [h]
    decide
  · have h := C3_multiline_value_accumulation.2.1
      { initState with
        inMultiline := true, quote := dquote, key := "K",
        value := "abc\n" } "mid" rfl (by decide)
    rw [h]
    decide
  · have h := C3_multiline_value_accumulation.2.2
      { initState with
        inMultiline := true, quote := dquote, key := "K",
        value := "abc\nmid\n" } "end\"" rfl (by decide)
    rw [h]
    decide

/-- C4: a candidate value of length at least two whose first and last
characters are the same quote character is stored in one step with exactly
that one leading and one trailing character removed; the interior is kept
verbatim, with no escape processing. -/
theorem C4_single_line_quoted_value :
    ∀ (st : ParseState) (line k0 v0 : String),
      st.inMultiline = false →
      trimSpace line ≠ "" →
      startsWithChar (trimSpace line) '#' = false →
      splitEq (trimSpace line) = some (k0, v0) →
      2 ≤ (trimSpace v0).data.length →
      ((trimSpace v0).data.headD ' ' = squote ∨
        (trimSpace v0).data.headD ' ' = dquote) →
      (trimSpace v0).data.getLastD ' ' = (trimSpace v0).data.headD ' ' →
      processLine st line =
        { st with
          out := minsert st.out (trimSpace k0)
            (String.mk (trimSpace v0).data.tail.dropLast),
          key := "", value := "" } := by
  intro st line k0 v0 h0 h1 h2 h3 h4 h5 h6
  simp only [processLine, h0, Bool.not_false, if_true]
  rw [if_neg (by simp [h1, h2])]
  simp only [h3]
  rw [if_pos h4, if_pos ⟨h5, h6⟩, strip_quotes_eq _ _ h4 rfl h6]

/-- Witness for C4: the spec's example `KEY="a b c"` parses to `a b c`. -/
theorem C4_witness :
    processLine initState "KEY=\"a b c\"" =
      { initState with out := [("KEY", "a b c")] } := by
  have h := C4_single_line_quoted_value initState "KEY=\"a b c\"" "KEY"
    "\"a b c\"" rfl (by decide) (by decide) (by decide) (by decide)
    (by decide) (by decide)
  rw [h]
  decide

/-- C8: a candidate value of length strictly less than two — the empty
string or a single character, a lone quote character included — is stored
under the key exactly as trimmed, with no quote stripping; the parser
stays in normal state. -/
theorem C8_short_value_stored_verbatim :
    ∀ (st : ParseState) (line k0 v0 : String),
      st.inMultiline = false →
      trimSpace line ≠ "" →
      startsWithChar (trimSpace line) '#' = false →
      splitEq (trimSpace line) = some (k0, v0) →
      (trimSpace v0).data.length < 2 →
      processLine st line =
        { st with
          out := minsert st.out (trimSpace k0) (trimSpace v0),
          key := "", value := "" } := by
  intro st line k0 v0 h0 h1 h2 h3 h4
  simp only [processLine, h0, Bool.not_false, if_true]
  rw [if_neg (by simp [h1, h2])]
  simp only [h3]
  rw [if_neg (by omega)]

/-- Witness for C8: `K="` stores the lone double-quote character verbatim,
and `E=` stores the empty string. -/
theorem C8_witness :
    processLine initState "K=\"" =
      { initState with out := [("K", "\"")] } ∧
    processLine initState "E=" =
      { initState with out := [("E", "")] } := by
  constructor
  · have h := C8_short_value_stored_verbatim initState "K=\"" "K" "\""
      rfl (by decide) (by decide) (by decide) (by decide)
    rw [h]
    decide
  · have h := C8_short_value_stored_verbatim initState "E=" "E" ""
      rfl (by decide) (by decide) (by decide) (by decide)
    rw [h]
    decide

/-- C5: when the input ends while the parser is still in multi-line state
(no remaining line ends with the recorded quote), the accumulated value is
discarded: the output map is exactly what it was when the multi-line value
was opened, the parser is still in multi-line state at end of input, and
the pending key is absent from the result unless an earlier complete
assignment put it there. No error is produced: `parseLines` is total and
the scan only reports I/O failures. -/
theorem C5_unterminated_multiline_discarded :
    ∀ (st : ParseState) (rest : List String),
      st.inMultiline = true →
      (∀ l ∈ rest, hasSuffixChar l st.quote = false) →
      (runLines st rest).out = st.out ∧
      (runLines st rest).inMultiline = true ∧
      (st.out.lookup st.key = none →
        ((runLines st rest).out).lookup st.key = none) := by
  intro st rest
  induction rest generalizing st with
  | nil =>
    intro h0 _
    exact ⟨rfl, h0, fun h => h⟩
  | cons l ls ih =>
    intro h0 hrest
    have hl : hasSuffixChar l st.quote = false :=
      hrest l (List.mem_cons_self l ls)
    have hstep : processLine st l =
        { st with value := st.value ++ l ++ "\n" } := by
      simp [processLine, h0, hl]
    simp only [runLines, List.foldl_cons]
    rw [hstep]
    exact ih { st with value := st.value ++ l ++ "\n" } h0
      (fun l2 hl2 => hrest l2 (List.mem_cons_of_mem _ hl2))

/-- Witness for C5: a store opened under key `K` is dropped when the only
remaining line lacks the closing quote; the earlier binding survives. -/
theorem C5_witness :
    (runLines
      { out := [("A", "1")], key := "K", value := "x\n",
        inMultiline := true, quote := dquote } ["mid"]).out = [("A", "1")] ∧
    (runLines
      { out := [("A", "1")], key := "K", value := "x\n",
        inMultiline := true, quote := dquote } ["mid"]).inMultiline
      = true ∧
    ([("A", "1")].lookup "K" = none →
      ((runLines
        { out := [("A", "1")], key := "K", value := "x\n",
          inMultiline := true, quote := dquote } ["mid"]).out).lookup "K"
        = none) :=
  C5_unterminated_multiline_discarded
    { out := [("A", "1")], key := "K", value := "x\n",
      inMultiline := true, quote := dquote } ["mid"] rfl (by decide)

/-- C9: once the one-time start completes, the Current Reference holds a
full snapshot: the initial load stores the parsed config or, on failure,
an empty config, and every sequence of subsequent operations — `Getenv`,
`Init`, `Stop`, reload firings, fallback configuration — leaves the
reference holding some snapshot, so `get`'s read of it never fails. -/
theorem C9_snapshot_always_present :
    ∀ (st : SysState) (load : Except String config) (ops : List Op),
      st.initDone = false →
      (ensureStarted st load).cfg =
        some (match load with | .ok c => c | .error _ => ⟨[]⟩) ∧
      (applyOps (ensureStarted st load) ops).cfg.isSome = true := by
  intro st load ops h
  constructor
  · simp [ensureStarted, h]
  · refine applyOps_cfg_isSome _ ops ?_
    simp [ensureStarted, h]

/-- Witness for C9: a failed initial load from the fresh process state
stores the empty snapshot, and it is still present after a `Stop`. -/
theorem C9_witness :
    initialState.initDone = false ∧
    (ensureStarted initialState (Except.error "boom")).cfg = some ⟨[]⟩ ∧
    (applyOps (ensureStarted initialState (Except.error "boom"))
      [Op.opStop]).cfg.isSome = true := by
  have h := C9_snapshot_always_present initialState (Except.error "boom")
    [Op.opStop] rfl
  exact ⟨rfl, h.1, h.2⟩

end Hotenv
